import Mathlib

/-!
Verification development for the rhinoceros game core (`main.go`).

The simulation core (`GameRunner.update`, `Enemy.update`,
`BackgroundObject.update`, `createBackgroundObject`, draw ordering) is
embedded shallowly below.  Go `float64` coordinates are modelled by `ℚ`,
Go `int` counters by `ℤ`, Go `uint64` tick counters by `ℕ`.  The helper
packages that are not part of the provided sources (`mathutil` projection
and collision, `touchutil` input predicates, `effectutil` effects) are
modelled from the specification's description of them; every definition
says so in its doc comment.
-/

/-- Planar vector with rational components, modelling `mathutil.Vector2D`. -/
structure Vec2 where
  x : ℚ
  y : ℚ
  deriving DecidableEq, Repr

/-- Componentwise addition of 2-D vectors (`Vector2D.Add`). -/
def Vec2.add (a b : Vec2) : Vec2 := ⟨a.x + b.x, a.y + b.y⟩

/-- Componentwise subtraction of 2-D vectors (`Vector2D.Sub`). -/
def Vec2.sub (a b : Vec2) : Vec2 := ⟨a.x - b.x, a.y - b.y⟩

/-- Dot product of 2-D vectors. -/
def Vec2.dot (a b : Vec2) : ℚ := a.x * b.x + a.y * b.y

/-- Spatial vector with rational components, modelling `mathutil.Vector3D`. -/
structure Vec3 where
  x : ℚ
  y : ℚ
  z : ℚ
  deriving DecidableEq, Repr

/-- Componentwise addition of 3-D vectors (`Vector3D.Add`). -/
def Vec3.add (a b : Vec3) : Vec3 := ⟨a.x + b.x, a.y + b.y, a.z + b.z⟩

/- Constants from the top of `main.go`. -/

/-- Constant `screenWidth = 640`. -/
def screenWidth : ℚ := 640
/-- Constant `screenHeight = 480`. -/
def screenHeight : ℚ := 480
/-- Constant `rhinoX = 170`. -/
def rhinoX : ℚ := 170
/-- Constant `rhinoY = 370`. -/
def rhinoY : ℚ := 370
/-- Constant `rhinoR = 10`. -/
def rhinoR : ℚ := 10
/-- Constant `rhinoSpeed = 2.5`. -/
def rhinoSpeed : ℚ := 5/2
/-- Constant `rhinoRushSpeed = 6`. -/
def rhinoRushSpeed : ℚ := 6
/-- Constant `enemyR = 8`. -/
def enemyR : ℚ := 8
/-- Constant `gageMax = 300` (the gauge is a Go `int`). -/
def gageMax : ℤ := 300
/-- Constant `cameraY = -100`. -/
def cameraY : ℚ := -100
/-- Constant `screenZ = 50`. -/
def screenZ : ℚ := 50

/-- Modelled from the spec: `mathutil.ConvertCoordinateWorldToScreen` is not
in the provided sources.  Per the spec it is a pinhole-camera projection:
perspective divide by world `z` scaled by `screenZ`, with `cameraY` a
vertical camera offset, anchored so `(w/2, h/2)` is the projection center
and world X maps directly. -/
def worldToScreen (p : Vec3) (camY scrZ w h : ℚ) : Vec2 :=
  ⟨w / 2 + scrZ * p.x / p.z, h / 2 + scrZ * (p.y - camY) / p.z⟩

/-- Hint for `screenToWorld`: which world coordinate is already known, the
others being passed as the NaN sentinel at the two call sites in `main.go`
(`rhinoZ` passes a known Y, `createBackgroundObject` a known Z). -/
inductive WorldHint where
  | yKnown (y : ℚ)
  | zKnown (z : ℚ)
  deriving DecidableEq, Repr

/-- Modelled from the spec: `mathutil.ConvertCoordinateScreenToWorld` is not
in the provided sources.  Per the spec it recovers the missing world
coordinates from a screen point by inverting the perspective transform,
given the partially-known world point. -/
def screenToWorld (s : Vec2) (hint : WorldHint) (camY scrZ w h : ℚ) : Vec3 :=
  match hint with
  | .yKnown y =>
      let z := scrZ * (y - camY) / (s.y - h / 2)
      ⟨(s.x - w / 2) * z / scrZ, y, z⟩
  | .zKnown z =>
      ⟨(s.x - w / 2) * z / scrZ, (s.y - h / 2) * z / scrZ + camY, z⟩

/-- Depth `rhinoZ`: world depth of the player, computed in `main.go` by projecting
the screen position `(rhinoX, rhinoY)` back to the world with known
world Y = 0. -/
def rhinoZ : ℚ :=
  (screenToWorld ⟨rhinoX, rhinoY⟩ (.yKnown 0) cameraY screenZ screenWidth screenHeight).z

/-- Modelled from the spec: `mathutil.CapsulesCollide` is not in the
provided sources.  Per the spec it sweeps each capsule over the tick and
returns whether the minimum distance between the two moving centers over
`t ∈ [0,1]` is at most the sum of the radii; computed here on squared
distances over `ℚ`.  `pa, va, ra` are center, per-tick displacement and
radius of the first capsule, `pb, vb, rb` of the second. -/
def capsulesCollide (pa va : Vec2) (ra : ℚ) (pb vb : Vec2) (rb : ℚ) : Bool :=
  let p := pb.sub pa
  let v := vb.sub va
  let vv := v.dot v
  let tStar : ℚ :=
    if vv = 0 then 0
    else min 1 (max 0 (-(p.dot v) / vv))
  let c := p.add ⟨tStar * v.x, tStar * v.y⟩
  decide (c.dot c ≤ (ra + rb) ^ 2)

/-- Modelled from the spec: `effectutil` effects are not in the provided
sources.  Per the spec an effect is a transient particle with a finite
lifetime and a `finished` predicate; the constructor's third argument in
`main.go` is its lifetime in ticks. -/
structure Effect where
  age : ℕ
  lifetime : ℕ
  deriving DecidableEq, Repr

/-- Modelled from the spec: a fresh effect with the given lifetime. -/
def Effect.new (lifetime : ℕ) : Effect := ⟨0, lifetime⟩

/-- Modelled from the spec: `Effect.Update` advances the particle's age. -/
def Effect.update (e : Effect) : Effect := { e with age := e.age + 1 }

/-- Modelled from the spec: `Effect.Finished` once the lifetime has elapsed. -/
def Effect.finished (e : Effect) : Bool := decide (e.lifetime ≤ e.age)

/-- Modelled from the spec: `touchutil`'s per-tick input snapshot is not in
the provided sources.  Per the spec the input source exposes
active / just-touched / just-released pointer predicates per tick; the
three predicates `AnyTouchesJustTouched`, `AnyTouchesActive`,
`AllTouchesJustReleased` used by `GameRunner.update` are modelled as the
fields of this snapshot. -/
structure Input where
  anyJustTouched : Bool
  anyActive : Bool
  allJustReleased : Bool
  deriving DecidableEq, Repr

/-- Type `Enemy` from `main.go`: age, current and previous position, post-hit
velocity (`hitV`, zero until a hit assigns it) and the hit flag.  The Go
back-reference to the runner is replaced by passing the runner's rush flag
into `Enemy.update`. -/
structure Enemy where
  ticks : ℕ
  pos : Vec2
  prevPos : Vec2
  hitV : Vec2
  hit : Bool
  deriving DecidableEq, Repr

/-- Step `Enemy.update`: increment age; while not hit, record `prevPos` and move
left at `1.5 +` (rush or normal rhino speed); once hit, move ballistically
by `hitV` and add gravity `(0, 1)` to `hitV`. -/
def Enemy.update (rush : Bool) (e : Enemy) : Enemy :=
  let e := { e with ticks := e.ticks + 1 }
  if !e.hit then
    let speed : ℚ := 3/2 + (if rush then rhinoRushSpeed else rhinoSpeed)
    { e with prevPos := e.pos, pos := e.pos.add ⟨-speed, 0⟩ }
  else
    { e with pos := e.pos.add e.hitV, hitV := e.hitV.add ⟨0, 1⟩ }

/-- Background object type: `"tree"`, `"weed"` or `"cloud"` in `main.go`. -/
inductive BgType where
  | tree
  | weed
  | cloud
  deriving DecidableEq, Repr

/-- Type `BackgroundObject` from `main.go`: type and 3-D world position.  The Go
back-reference to the runner is replaced by passing the rush flag into
`BackgroundObject.update`. -/
structure BackgroundObject where
  typ : BgType
  pos : Vec3
  deriving DecidableEq, Repr

/-- Step `BackgroundObject.update`: translate left at rush or normal speed. -/
def BackgroundObject.update (rush : Bool) (o : BackgroundObject) : BackgroundObject :=
  let speed : ℚ := if rush then rhinoRushSpeed else rhinoSpeed
  { o with pos := o.pos.add ⟨-speed, 0, 0⟩ }

/-- Spawner `GameRunner.createBackgroundObject`: pick the type-specific world Y and
depth range, draw the depth `zOffset + rnd * zRange` (where `rnd` stands
for the `random.Float64()` draw in `[0,1)`), project to the screen,
override the screen X by the requested one, and project back to the world
with the depth known. -/
def createBackgroundObject (typ : BgType) (scrX : ℚ) (rnd : ℚ) : BackgroundObject :=
  let y : ℚ := match typ with
    | .tree => 0
    | .weed => 0
    | .cloud => -50000
  let zOffset : ℚ := match typ with
    | .tree => 20
    | .weed => 20
    | .cloud => 9999
  let zRange : ℚ := match typ with
    | .tree => 700
    | .weed => 700
    | .cloud => 99999
  let wz : ℚ := zOffset + rnd * zRange
  let sPos := worldToScreen ⟨0, y, wz⟩ cameraY screenZ screenWidth screenHeight
  let sPos : Vec2 := { sPos with x := scrX }
  let pos := screenToWorld sPos (.zKnown wz) cameraY screenZ screenWidth screenHeight
  { typ := typ, pos := pos }

/-- Type `GameRunner` from `main.go`: per-playthrough mutable state.  The Go
back-reference `game` is dropped; its random source is supplied through
`Env` and its touches through `Input`. -/
structure GameRunner where
  ticks : ℕ
  mute : Bool
  gameOver : Bool
  gage : ℤ
  rush : Bool
  hitCountInRush : ℤ
  ticksAtHit : ℕ
  enemies : List Enemy
  objects : List BackgroundObject
  effects : List Effect
  score : ℤ

/-- One tick's worth of draws from the runner's random source, supplied as
an oracle: the `random.Int()` draws deciding the enemy / tree / cloud
spawns, the `random.Float64()` depth draws of the three spawn sites, and
the per-enemy-index `random.Float64()` draws for hit impulses. -/
structure Env where
  enemyRand : ℕ
  treeRand : ℕ
  cloudRand : ℕ
  treeRnd : ℚ
  weedRnd : ℚ
  cloudRnd : ℚ
  hitRnd1 : ℕ → ℚ
  hitRnd2 : ℕ → ℚ

/-- The charging branch of `GameRunner.update` (`!r.rush`): a just-begun
touch, or any active touch with a nonzero gauge, increments the gauge,
clamped to `gageMax`; then a full release with a nonzero gauge starts the
rush. -/
def chargePhase (inp : Input) (r : GameRunner) : GameRunner :=
  let r :=
    if inp.anyJustTouched || (decide (0 < r.gage) && inp.anyActive) then
      let g := r.gage + 1
      { r with gage := if gageMax < g then gageMax else g }
    else r
  if decide (0 < r.gage) && inp.allJustReleased then { r with rush := true } else r

/-- The rushing branch of `GameRunner.update` (`r.rush`): decrement the
gauge, emit a splash effect every 10th tick while the gauge is positive,
and when the gauge reaches `≤ 0` end the rush, clamp the gauge to `0` and
reset the hit streak. -/
def rushPhase (r : GameRunner) : GameRunner :=
  let r := { r with gage := r.gage - 1 }
  let r :=
    if 0 < r.gage ∧ r.gage % 10 = 0 then
      { r with effects := r.effects ++ [Effect.new 15] }
    else r
  if r.gage ≤ 0 then { r with rush := false, gage := 0, hitCountInRush := 0 } else r

/-- Step 2 of `GameRunner.update`: the two mutually exclusive gauge
regimes. -/
def gaugePhase (inp : Input) (r : GameRunner) : GameRunner :=
  if r.rush then rushPhase r else chargePhase inp r

/-- Steps 3–4 of `GameRunner.update`: spawn an enemy at the right edge
(once past tick 120, on a `1/60` draw), and spawn tree (on a draw), weed
(always) and cloud (on a draw) background objects just off the right
edge. -/
def spawnPhase (env : Env) (r : GameRunner) : GameRunner :=
  let r :=
    if 120 < r.ticks ∧ env.enemyRand % 60 = 0 then
      { r with enemies := r.enemies ++
          [{ ticks := 0, pos := ⟨screenWidth + 50, rhinoY⟩,
             prevPos := ⟨screenWidth + 50, rhinoY⟩, hitV := ⟨0, 0⟩, hit := false }] }
    else r
  let r :=
    if env.treeRand % 60 = 0 then
      { r with objects := r.objects ++ [createBackgroundObject .tree (screenWidth + 100) env.treeRnd] }
    else r
  let r := { r with objects := r.objects ++ [createBackgroundObject .weed (screenWidth + 100) env.weedRnd] }
  if env.cloudRand % 60 = 0 then
    { r with objects := r.objects ++ [createBackgroundObject .cloud (screenWidth + 100) env.cloudRnd] }
  else r

/-- The collision test of `GameRunner.update` for one enemy: the stationary
player capsule at `(rhinoX, rhinoY)` radius `rhinoR` against the enemy's
sweep from `prevPos` by `pos - prevPos` with radius `enemyR`. -/
def enemyCollides (e : Enemy) : Bool :=
  capsulesCollide ⟨rhinoX, rhinoY⟩ ⟨0, 0⟩ rhinoR e.prevPos (e.pos.sub e.prevPos) enemyR

/-- The runner fields the collision loop mutates while walking the enemy
list. -/
structure HitState where
  gameOver : Bool
  hitCountInRush : ℤ
  score : ℤ
  ticksAtHit : ℕ
  effects : List Effect

/-- Step 5–6 of `GameRunner.update`: walk the enemies in order; a colliding
not-yet-hit enemy is, while rushing, given a random impulse and marked hit,
the hit streak is incremented and `10 ×` the new streak added to the score
with a gain effect (lifetime 60) and a splash effect (lifetime 999)
appended — and, while not rushing, sets game over; in either case the
enemy is then stepped by `Enemy.update`.  `now` is the current tick for
`ticksAtHit`, `i` the loop index feeding the impulse draws. -/
def processEnemies (rush : Bool) (now : ℕ) (env : Env) :
    ℕ → List Enemy → HitState → List Enemy × HitState
  | _, [], st => ([], st)
  | i, e :: es, st =>
    let p : Enemy × HitState :=
      if !e.hit && enemyCollides e then
        if rush then
          ({ e with hitV := ⟨5 + 10 * env.hitRnd1 i, -(10 + 20 * env.hitRnd2 i)⟩, hit := true },
           { st with ticksAtHit := now,
                     hitCountInRush := st.hitCountInRush + 1,
                     score := st.score + 10 * (st.hitCountInRush + 1),
                     effects := st.effects ++ [Effect.new 60, Effect.new 999] })
        else
          (e, { st with gameOver := true })
      else (e, st)
    let rest := processEnemies rush now env (i + 1) es p.2
    (Enemy.update rush p.1 :: rest.1, rest.2)

/-- The descending-depth order used for the end-of-tick `sort.Slice`: `a`
comes no later than `b` when `a`'s world Z is at least `b`'s. -/
def zGE (a b : BackgroundObject) : Prop := b.pos.z ≤ a.pos.z

instance : DecidableRel zGE :=
  fun a b => inferInstanceAs (Decidable (b.pos.z ≤ a.pos.z))

instance : IsTotal BackgroundObject zGE := ⟨fun a b => le_total b.pos.z a.pos.z⟩

instance : IsTrans BackgroundObject zGE := ⟨fun _ _ _ h1 h2 => le_trans h2 h1⟩

/-- Retention predicate of the enemy prune (step 7): vertical position
still above the `screenHeight + 100` cutoff. -/
def enemyAlive (e : Enemy) : Bool := decide (e.pos.y < screenHeight + 100)

/-- Retention predicate of the background-object prune (step 7): projected
screen X still right of `-100`. -/
def objectAlive (o : BackgroundObject) : Bool :=
  decide (-100 < (worldToScreen o.pos cameraY screenZ screenWidth screenHeight).x)

/-- Steps 5–8 of `GameRunner.update`: the collision loop (which also steps
each enemy), the background-object and effect steps, the three prunes in
order, and the final descending-Z re-sort of the background objects. -/
def simPhase (env : Env) (r : GameRunner) : GameRunner :=
  let pr := processEnemies r.rush r.ticks env 0 r.enemies
      { gameOver := r.gameOver, hitCountInRush := r.hitCountInRush,
        score := r.score, ticksAtHit := r.ticksAtHit, effects := r.effects }
  let r := { r with enemies := pr.1, gameOver := pr.2.gameOver,
                    hitCountInRush := pr.2.hitCountInRush, score := pr.2.score,
                    ticksAtHit := pr.2.ticksAtHit, effects := pr.2.effects }
  let r := { r with objects := r.objects.map (BackgroundObject.update r.rush) }
  let r := { r with effects := r.effects.map Effect.update }
  let r := { r with enemies := r.enemies.filter enemyAlive }
  let r := { r with objects := r.objects.filter objectAlive }
  let r := { r with effects := r.effects.filter (fun e => ! e.finished) }
  { r with objects := List.insertionSort zGE r.objects }

/-- Step `GameRunner.update` from `main.go`: no-op once game over; otherwise
increment the tick, run the gauge regime, the spawns, and the simulation
tail (`simPhase`). -/
def GameRunner.update (env : Env) (inp : Input) (r : GameRunner) : GameRunner :=
  if r.gameOver then r else
  simPhase env (spawnPhase env (gaugePhase inp { r with ticks := r.ticks + 1 }))

/-- Iterated ticks: fold `GameRunner.update` over a list of per-tick
environments and inputs. -/
def GameRunner.run (steps : List (Env × Input)) (r : GameRunner) : GameRunner :=
  steps.foldl (fun s p => GameRunner.update p.1 p.2 s) r

/-- The background-object draw sequence of `GameRunner.draw`: first the
objects behind the player (`Z > rhinoZ`), in list order, then — after the
player is drawn — the objects at `Z ≤ rhinoZ`, in list order. -/
def bgDrawOrder (objs : List BackgroundObject) : List BackgroundObject :=
  objs.filter (fun o => decide (rhinoZ < o.pos.z)) ++
    objs.filter (fun o => decide (o.pos.z ≤ rhinoZ))

/-! ### Projection lemmas for the update phases -/

@[simp]
theorem chargePhase_ticks (inp : Input) (r : GameRunner) :
    (chargePhase inp r).ticks = r.ticks := by
  unfold chargePhase; dsimp only; split_ifs <;> rfl

@[simp]
theorem chargePhase_gameOver (inp : Input) (r : GameRunner) :
    (chargePhase inp r).gameOver = r.gameOver := by
  unfold chargePhase; dsimp only; split_ifs <;> rfl

@[simp]
theorem chargePhase_enemies (inp : Input) (r : GameRunner) :
    (chargePhase inp r).enemies = r.enemies := by
  unfold chargePhase; dsimp only; split_ifs <;> rfl

@[simp]
theorem chargePhase_score (inp : Input) (r : GameRunner) :
    (chargePhase inp r).score = r.score := by
  unfold chargePhase; dsimp only; split_ifs <;> rfl

@[simp]
theorem chargePhase_hitCountInRush (inp : Input) (r : GameRunner) :
    (chargePhase inp r).hitCountInRush = r.hitCountInRush := by
  unfold chargePhase; dsimp only; split_ifs <;> rfl

@[simp]
theorem chargePhase_effects (inp : Input) (r : GameRunner) :
    (chargePhase inp r).effects = r.effects := by
  unfold chargePhase; dsimp only; split_ifs <;> rfl

theorem chargePhase_gage (inp : Input) (r : GameRunner) :
    (chargePhase inp r).gage =
      if inp.anyJustTouched || (decide (0 < r.gage) && inp.anyActive)
      then min (r.gage + 1) gageMax else r.gage := by
  unfold chargePhase; dsimp only
  split_ifs <;> simp_all [gageMax] <;> omega

@[simp]
theorem rushPhase_ticks (r : GameRunner) : (rushPhase r).ticks = r.ticks := by
  unfold rushPhase; dsimp only; split_ifs <;> rfl

@[simp]
theorem rushPhase_gameOver (r : GameRunner) : (rushPhase r).gameOver = r.gameOver := by
  unfold rushPhase; dsimp only; split_ifs <;> rfl

@[simp]
theorem rushPhase_enemies (r : GameRunner) : (rushPhase r).enemies = r.enemies := by
  unfold rushPhase; dsimp only; split_ifs <;> rfl

@[simp]
theorem rushPhase_score (r : GameRunner) : (rushPhase r).score = r.score := by
  unfold rushPhase; dsimp only; split_ifs <;> rfl

theorem rushPhase_of_gt_one (r : GameRunner) (h : 1 < r.gage) :
    (rushPhase r).gage = r.gage - 1 ∧ (rushPhase r).rush = r.rush ∧
      (rushPhase r).hitCountInRush = r.hitCountInRush := by
  unfold rushPhase; dsimp only; split_ifs <;> simp_all <;> omega

theorem rushPhase_of_le_one (r : GameRunner) (h : r.gage ≤ 1) :
    (rushPhase r).gage = 0 ∧ (rushPhase r).rush = false ∧
      (rushPhase r).hitCountInRush = 0 := by
  unfold rushPhase; dsimp only; split_ifs <;> simp_all

@[simp]
theorem spawnPhase_ticks (env : Env) (r : GameRunner) :
    (spawnPhase env r).ticks = r.ticks := by
  unfold spawnPhase; dsimp only; split_ifs <;> rfl

@[simp]
theorem spawnPhase_gameOver (env : Env) (r : GameRunner) :
    (spawnPhase env r).gameOver = r.gameOver := by
  unfold spawnPhase; dsimp only; split_ifs <;> rfl

@[simp]
theorem spawnPhase_gage (env : Env) (r : GameRunner) :
    (spawnPhase env r).gage = r.gage := by
  unfold spawnPhase; dsimp only; split_ifs <;> rfl

@[simp]
theorem spawnPhase_rush (env : Env) (r : GameRunner) :
    (spawnPhase env r).rush = r.rush := by
  unfold spawnPhase; dsimp only; split_ifs <;> rfl

@[simp]
theorem spawnPhase_hitCountInRush (env : Env) (r : GameRunner) :
    (spawnPhase env r).hitCountInRush = r.hitCountInRush := by
  unfold spawnPhase; dsimp only; split_ifs <;> rfl

@[simp]
theorem spawnPhase_score (env : Env) (r : GameRunner) :
    (spawnPhase env r).score = r.score := by
  unfold spawnPhase; dsimp only; split_ifs <;> rfl

@[simp]
theorem spawnPhase_effects (env : Env) (r : GameRunner) :
    (spawnPhase env r).effects = r.effects := by
  unfold spawnPhase; dsimp only; split_ifs <;> rfl

@[simp]
theorem simPhase_gage (env : Env) (r : GameRunner) : (simPhase env r).gage = r.gage := rfl

@[simp]
theorem simPhase_rush (env : Env) (r : GameRunner) : (simPhase env r).rush = r.rush := rfl

@[simp]
theorem simPhase_ticks (env : Env) (r : GameRunner) : (simPhase env r).ticks = r.ticks := rfl

theorem simPhase_gameOver (env : Env) (r : GameRunner) :
    (simPhase env r).gameOver =
      (processEnemies r.rush r.ticks env 0 r.enemies
        { gameOver := r.gameOver, hitCountInRush := r.hitCountInRush,
          score := r.score, ticksAtHit := r.ticksAtHit, effects := r.effects }).2.gameOver := rfl

theorem simPhase_score (env : Env) (r : GameRunner) :
    (simPhase env r).score =
      (processEnemies r.rush r.ticks env 0 r.enemies
        { gameOver := r.gameOver, hitCountInRush := r.hitCountInRush,
          score := r.score, ticksAtHit := r.ticksAtHit, effects := r.effects }).2.score := rfl

theorem simPhase_hitCountInRush (env : Env) (r : GameRunner) :
    (simPhase env r).hitCountInRush =
      (processEnemies r.rush r.ticks env 0 r.enemies
        { gameOver := r.gameOver, hitCountInRush := r.hitCountInRush,
          score := r.score, ticksAtHit := r.ticksAtHit, effects := r.effects }).2.hitCountInRush := rfl

theorem simPhase_enemies (env : Env) (r : GameRunner) :
    (simPhase env r).enemies =
      (processEnemies r.rush r.ticks env 0 r.enemies
        { gameOver := r.gameOver, hitCountInRush := r.hitCountInRush,
          score := r.score, ticksAtHit := r.ticksAtHit, effects := r.effects }).1.filter enemyAlive := rfl

theorem simPhase_objects (env : Env) (r : GameRunner) :
    (simPhase env r).objects =
      List.insertionSort zGE
        ((r.objects.map (BackgroundObject.update r.rush)).filter objectAlive) := rfl

theorem update_eq (env : Env) (inp : Input) (r : GameRunner) (h : r.gameOver = false) :
    GameRunner.update env inp r =
      simPhase env (spawnPhase env (gaugePhase inp { r with ticks := r.ticks + 1 })) := by
  simp [GameRunner.update, h]

@[simp]
theorem gaugePhase_gameOver (inp : Input) (r : GameRunner) :
    (gaugePhase inp r).gameOver = r.gameOver := by
  unfold gaugePhase; split <;> simp

@[simp]
theorem gaugePhase_ticks (inp : Input) (r : GameRunner) :
    (gaugePhase inp r).ticks = r.ticks := by
  unfold gaugePhase; split <;> simp

@[simp]
theorem gaugePhase_enemies (inp : Input) (r : GameRunner) :
    (gaugePhase inp r).enemies = r.enemies := by
  unfold gaugePhase; split <;> simp

@[simp]
theorem gaugePhase_score (inp : Input) (r : GameRunner) :
    (gaugePhase inp r).score = r.score := by
  unfold gaugePhase; split <;> simp

/-! ### Lemmas about the collision loop -/

theorem processEnemies_gameOver (rush : Bool) (now : ℕ) (env : Env) :
    ∀ (es : List Enemy) (i : ℕ) (st : HitState),
      (processEnemies rush now env i es st).2.gameOver =
        (st.gameOver || (!rush && es.any fun e => !e.hit && enemyCollides e)) := by
  intro es
  induction es with
  | nil => intro i st; simp [processEnemies]
  | cons e es ih =>
    intro i st
    by_cases hc : (!e.hit && enemyCollides e) = true
    · rcases Bool.eq_false_or_eq_true rush with hr | hr <;> subst hr <;>
        simp [processEnemies, hc, ih, List.any_cons]
    · simp only [Bool.not_eq_true] at hc
      simp [processEnemies, hc, ih, List.any_cons]

theorem processEnemies_not_rush_frame (now : ℕ) (env : Env) :
    ∀ (es : List Enemy) (i : ℕ) (st : HitState),
      (processEnemies false now env i es st).2.hitCountInRush = st.hitCountInRush ∧
      (processEnemies false now env i es st).2.score = st.score := by
  intro es
  induction es with
  | nil => intro i st; simp [processEnemies]
  | cons e es ih =>
    intro i st
    by_cases hc : (!e.hit && enemyCollides e) = true
    · simpa [processEnemies, hc] using ih (i + 1) { st with gameOver := true }
    · simp only [Bool.not_eq_true] at hc
      simpa [processEnemies, hc] using ih (i + 1) st

theorem processEnemies_mono (rush : Bool) (now : ℕ) (env : Env) :
    ∀ (es : List Enemy) (i : ℕ) (st : HitState), 0 ≤ st.hitCountInRush →
      (st.hitCountInRush ≤ (processEnemies rush now env i es st).2.hitCountInRush ∧
        st.score ≤ (processEnemies rush now env i es st).2.score) := by
  intro es
  induction es with
  | nil => intro i st h; simp [processEnemies]
  | cons e es ih =>
    intro i st h
    by_cases hc : (!e.hit && enemyCollides e) = true
    · rcases Bool.eq_false_or_eq_true rush with hr | hr <;> subst hr
      · have h' : (0:ℤ) ≤ st.hitCountInRush + 1 := by omega
        have hih := ih (i + 1)
          { st with ticksAtHit := now, hitCountInRush := st.hitCountInRush + 1,
                    score := st.score + 10 * (st.hitCountInRush + 1),
                    effects := st.effects ++ [Effect.new 60, Effect.new 999] } h'
        simp only [processEnemies, hc, if_true]
        refine ⟨le_trans (by omega : st.hitCountInRush ≤ st.hitCountInRush + 1) ?_,
          le_trans (by omega : st.score ≤ st.score + 10 * (st.hitCountInRush + 1)) ?_⟩
        · simpa using hih.1
        · simpa using hih.2
      · simpa [processEnemies, hc] using ih (i + 1) { st with gameOver := true } h
    · simp only [Bool.not_eq_true] at hc
      simpa [processEnemies, hc] using ih (i + 1) st h

theorem processEnemies_rush_agg (now : ℕ) (env : Env) :
    ∀ (es : List Enemy) (i : ℕ) (st : HitState),
      (processEnemies true now env i es st).2.hitCountInRush =
        st.hitCountInRush + ((es.filter fun e => !e.hit && enemyCollides e).length : ℤ) ∧
      (processEnemies true now env i es st).2.score =
        st.score + ∑ j in Finset.range (es.filter fun e => !e.hit && enemyCollides e).length,
          10 * (st.hitCountInRush + (j : ℤ) + 1) := by
  intro es
  induction es with
  | nil => intro i st; simp [processEnemies]
  | cons e es ih =>
    intro i st
    by_cases hc : (!e.hit && enemyCollides e) = true
    · have hih := ih (i + 1)
        { st with ticksAtHit := now, hitCountInRush := st.hitCountInRush + 1,
                  score := st.score + 10 * (st.hitCountInRush + 1),
                  effects := st.effects ++ [Effect.new 60, Effect.new 999] }
      simp only [processEnemies, hc, if_true, List.filter_cons_of_pos]
      simp only at hih
      constructor
      · rw [hih.1, List.length_cons]; push_cast; ring
      · rw [hih.2, List.length_cons, Finset.sum_range_succ']
        have hterm :
            (∑ j in Finset.range (List.filter (fun e => !e.hit && enemyCollides e) es).length,
                (10:ℤ) * (st.hitCountInRush + 1 + (j : ℤ) + 1)) =
              ∑ j in Finset.range (List.filter (fun e => !e.hit && enemyCollides e) es).length,
                (10:ℤ) * (st.hitCountInRush + ((j + 1 : ℕ) : ℤ) + 1) := by
          apply Finset.sum_congr rfl
          intro j _
          push_cast
          ring
        rw [hterm]
        push_cast
        ring
    · simp only [Bool.not_eq_true] at hc
      have hih := ih (i + 1) st
      simp [processEnemies, hc, hih]

/-! ### Single-tick step lemmas -/

theorem update_rush_step (env : Env) (inp : Input) (r : GameRunner)
    (h0 : r.gameOver = false) (h1 : r.rush = true) (h2 : 1 < r.gage) :
    (GameRunner.update env inp r).rush = true ∧
      (GameRunner.update env inp r).gage = r.gage - 1 ∧
      (GameRunner.update env inp r).gameOver = false := by
  rw [update_eq env inp r h0]
  have hgp : gaugePhase inp { r with ticks := r.ticks + 1 } =
      rushPhase { r with ticks := r.ticks + 1 } := by
    simp [gaugePhase, h1]
  obtain ⟨e1, e2, e3⟩ := rushPhase_of_gt_one { r with ticks := r.ticks + 1 } (by simpa using h2)
  refine ⟨?_, ?_, ?_⟩
  · rw [simPhase_rush, spawnPhase_rush, hgp, e2]; simpa using h1
  · rw [simPhase_gage, spawnPhase_gage, hgp, e1]
  · rw [simPhase_gameOver, processEnemies_gameOver]
    simp only [hgp, spawnPhase_gameOver, spawnPhase_rush, rushPhase_gameOver, e2]
    simp [h0, h1]

theorem update_rush_end (env : Env) (inp : Input) (r : GameRunner)
    (h0 : r.gameOver = false) (h1 : r.rush = true) (h2 : r.gage ≤ 1) :
    (GameRunner.update env inp r).rush = false ∧
      (GameRunner.update env inp r).gage = 0 ∧
      (GameRunner.update env inp r).hitCountInRush = 0 := by
  rw [update_eq env inp r h0]
  have hgp : gaugePhase inp { r with ticks := r.ticks + 1 } =
      rushPhase { r with ticks := r.ticks + 1 } := by
    simp [gaugePhase, h1]
  obtain ⟨e1, e2, e3⟩ := rushPhase_of_le_one { r with ticks := r.ticks + 1 } (by simpa using h2)
  refine ⟨?_, ?_, ?_⟩
  · rw [simPhase_rush, spawnPhase_rush, hgp, e2]
  · rw [simPhase_gage, spawnPhase_gage, hgp, e1]
  · rw [simPhase_hitCountInRush]
    have hrush : (spawnPhase env (gaugePhase inp { r with ticks := r.ticks + 1 })).rush = false := by
      rw [spawnPhase_rush, hgp, e2]
    rw [hrush, (processEnemies_not_rush_frame _ env _ _ _).1]
    simp [hgp, e3]

theorem gaugePhase_bounds (inp : Input) (r : GameRunner)
    (h0 : 0 ≤ r.gage) (h1 : r.gage ≤ gageMax) :
    0 ≤ (gaugePhase inp r).gage ∧ (gaugePhase inp r).gage ≤ gageMax := by
  unfold gaugePhase rushPhase chargePhase; dsimp only
  split_ifs <;> simp_all [gageMax] <;> omega

theorem update_gage_bounds (env : Env) (inp : Input) (r : GameRunner)
    (h0 : 0 ≤ r.gage) (h1 : r.gage ≤ gageMax) :
    0 ≤ (GameRunner.update env inp r).gage ∧ (GameRunner.update env inp r).gage ≤ gageMax := by
  by_cases hg : r.gameOver = true
  · simp [GameRunner.update, hg]; exact ⟨h0, h1⟩
  · rw [update_eq env inp r (by simpa using hg)]
    rw [simPhase_gage, spawnPhase_gage]
    exact gaugePhase_bounds inp { r with ticks := r.ticks + 1 } (by simpa using h0)
      (by simpa using h1)

theorem run_gage_bounds (steps : List (Env × Input)) (r : GameRunner)
    (h0 : 0 ≤ r.gage) (h1 : r.gage ≤ gageMax) :
    0 ≤ (GameRunner.run steps r).gage ∧ (GameRunner.run steps r).gage ≤ gageMax := by
  induction steps generalizing r with
  | nil => exact ⟨h0, h1⟩
  | cons s rest ih =>
    have hstep := update_gage_bounds s.1 s.2 r h0 h1
    simpa [GameRunner.run] using ih (GameRunner.update s.1 s.2 r) hstep.1 hstep.2

/-! ### Concrete states for witnesses and counterexamples -/

/-- A per-tick environment whose random spawn draws all miss. -/
def envMiss : Env := ⟨1, 1, 1, 0, 0, 0, fun _ => 0, fun _ => 0⟩

/-- The empty input snapshot: no touch at all. -/
def inpNone : Input := ⟨false, false, false⟩

/-- A fresh runner, the Go zero value of `GameRunner`. -/
def runner0 : GameRunner := ⟨0, false, false, 0, false, 0, 0, [], [], [], 0⟩

/-- A runner mid-rush with 2 ticks of gauge left. -/
def rushRunner : GameRunner := ⟨50, false, false, 2, true, 7, 0, [], [], [], 120⟩

/-- A runner that is already game over. -/
def runnerOver : GameRunner := ⟨5, false, true, 10, false, 2, 1, [], [], [], 30⟩

/-! ### Claim theorems -/

/-- C1: for every state with the gauge in bounds — as in every reachable
state, charging clamps at `gageMax` and rushing clamps at `0` — the gauge
is again within `0 ≤ gage ≤ gageMax` after one `GameRunner.update` and
after any sequence of updates. -/
theorem gauge_stays_in_bounds (env : Env) (inp : Input) (steps : List (Env × Input))
    (r : GameRunner) (h0 : 0 ≤ r.gage) (h1 : r.gage ≤ gageMax) :
    (0 ≤ (GameRunner.update env inp r).gage ∧ (GameRunner.update env inp r).gage ≤ gageMax) ∧
      (0 ≤ (GameRunner.run steps r).gage ∧ (GameRunner.run steps r).gage ≤ gageMax) :=
  ⟨update_gage_bounds env inp r h0 h1, run_gage_bounds steps r h0 h1⟩

/-- Witness for C1 at the fresh runner. -/
theorem gauge_stays_in_bounds_witness :
    0 ≤ (GameRunner.update envMiss inpNone runner0).gage ∧
      (GameRunner.update envMiss inpNone runner0).gage ≤ gageMax :=
  (gauge_stays_in_bounds envMiss inpNone [] runner0 (by decide) (by decide)).1

/-- C2: a rush always terminates — from any non-game-over state in rush
with gauge `g > 0`, every tick strictly decreases the gauge by 1 with the
rush flag still set, and after exactly `g` ticks the gauge is 0, the rush
flag is cleared and `hitCountInRush` is reset to 0. -/
theorem rush_terminates (r : GameRunner) (g : ℕ) (steps : List (Env × Input))
    (h0 : r.gameOver = false) (h1 : r.rush = true) (hg : r.gage = (g : ℤ))
    (hpos : 0 < g) (hlen : steps.length = g) :
    (∀ k, k < g →
        (GameRunner.run (steps.take k) r).rush = true ∧
        (GameRunner.run (steps.take k) r).gage = (g : ℤ) - (k : ℤ) ∧
        (GameRunner.run (steps.take k) r).gameOver = false) ∧
      (GameRunner.run steps r).rush = false ∧
      (GameRunner.run steps r).gage = 0 ∧
      (GameRunner.run steps r).hitCountInRush = 0 := by
  induction g generalizing r steps with
  | zero => omega
  | succ n ih =>
    cases steps with
    | nil => simp at hlen
    | cons s rest =>
      have hlen' : rest.length = n := by simpa using hlen
      by_cases hn : n = 0
      · subst hn
        have hrest : rest = [] := List.length_eq_zero.mp hlen'
        subst hrest
        have hone : r.gage ≤ 1 := by rw [hg]; norm_num
        obtain ⟨e1, e2, e3⟩ := update_rush_end s.1 s.2 r h0 h1 hone
        refine ⟨?_, ?_, ?_, ?_⟩
        · intro k hk
          have hk0 : k = 0 := by omega
          subst hk0
          exact ⟨by simpa [GameRunner.run] using h1,
            by simp [GameRunner.run, hg],
            by simpa [GameRunner.run] using h0⟩
        · simpa [GameRunner.run] using e1
        · simpa [GameRunner.run] using e2
        · simpa [GameRunner.run] using e3
      · have h2 : 1 < r.gage := by rw [hg]; push_cast; omega
        obtain ⟨e1, e2, e3⟩ := update_rush_step s.1 s.2 r h0 h1 h2
        have hg' : (GameRunner.update s.1 s.2 r).gage = (n : ℤ) := by
          rw [e2, hg]; push_cast; ring
        have hres := ih (GameRunner.update s.1 s.2 r) rest e3 e1 hg' (by omega) hlen'
        have hcons : ∀ l, GameRunner.run (s :: l) r =
            GameRunner.run l (GameRunner.update s.1 s.2 r) := by
          intro l; simp [GameRunner.run]
        refine ⟨?_, ?_, ?_, ?_⟩
        · intro k hk
          cases k with
          | zero =>
            exact ⟨by simpa [GameRunner.run] using h1,
              by simp [GameRunner.run, hg],
              by simpa [GameRunner.run] using h0⟩
          | succ j =>
            have hj : j < n := by omega
            have htake : GameRunner.run ((s :: rest).take (j + 1)) r =
                GameRunner.run (rest.take j) (GameRunner.update s.1 s.2 r) := by
              rw [List.take_succ_cons]; exact hcons _
            obtain ⟨a, b, c⟩ := hres.1 j hj
            rw [htake]
            refine ⟨a, ?_, c⟩
            rw [b]; push_cast; ring
        · rw [hcons rest]; exact hres.2.1
        · rw [hcons rest]; exact hres.2.2.1
        · rw [hcons rest]; exact hres.2.2.2

/-- Witness for C2: a rush with 2 gauge ticks ends after exactly 2 updates. -/
theorem rush_terminates_witness :
    (GameRunner.run [(envMiss, inpNone), (envMiss, inpNone)] rushRunner).rush = false ∧
      (GameRunner.run [(envMiss, inpNone), (envMiss, inpNone)] rushRunner).gage = 0 ∧
      (GameRunner.run [(envMiss, inpNone), (envMiss, inpNone)] rushRunner).hitCountInRush = 0 :=
  (rush_terminates rushRunner 2 [(envMiss, inpNone), (envMiss, inpNone)]
    rfl rfl (by decide) (by decide) rfl).2

/-- C7: once `gameOver` is set, `GameRunner.update` returns the runner
unchanged in every field, for every input — in particular `gameOver` is
never cleared. -/
theorem update_noop_when_gameOver (env : Env) (inp : Input) (r : GameRunner) :
    (r.gameOver = true → GameRunner.update env inp r = r) ∧
      (r.gameOver = true → (GameRunner.update env inp r).gameOver = true) := by
  constructor <;> intro h <;> simp [GameRunner.update, h]

/-- Witness for C7 at a finished runner. -/
theorem update_noop_when_gameOver_witness :
    GameRunner.update envMiss inpNone runnerOver = runnerOver :=
  (update_noop_when_gameOver envMiss inpNone runnerOver).1 rfl

/-- The split draw pass preserves descending-Z order: filtering the
behind-player objects and then the at-or-before-player objects out of a
descending-Z list and concatenating them stays descending. -/
theorem sorted_bgDrawOrder {l : List BackgroundObject} (h : List.Sorted zGE l) :
    List.Sorted zGE (bgDrawOrder l) := by
  unfold bgDrawOrder
  refine List.pairwise_append.mpr ⟨h.filter _, h.filter _, ?_⟩
  intro a ha b hb
  rw [List.mem_filter] at ha hb
  have ha2 : rhinoZ < a.pos.z := by simpa using ha.2
  have hb2 : b.pos.z ≤ rhinoZ := by simpa using hb.2
  exact le_trans hb2 (le_of_lt ha2)

/-- C8: after any non-game-over `GameRunner.update` tick the background
objects are sorted by descending world Z, and the draw pass — behind-player
objects first, then the rest — emits them in descending Z overall. -/
theorem objects_sorted_after_update (env : Env) (inp : Input) (r : GameRunner)
    (h : r.gameOver = false) :
    List.Sorted zGE (GameRunner.update env inp r).objects ∧
      List.Sorted zGE (bgDrawOrder (GameRunner.update env inp r).objects) := by
  have hs : List.Sorted zGE (GameRunner.update env inp r).objects := by
    rw [update_eq env inp r h, simPhase_objects]
    exact List.sorted_insertionSort zGE _
  exact ⟨hs, sorted_bgDrawOrder hs⟩

/-- Witness for C8 at the fresh runner. -/
theorem objects_sorted_after_update_witness :
    List.Sorted zGE (GameRunner.update envMiss inpNone runner0).objects ∧
      List.Sorted zGE (bgDrawOrder (GameRunner.update envMiss inpNone runner0).objects) :=
  objects_sorted_after_update envMiss inpNone runner0 rfl

/-- An enemy standing exactly on the player, so the collision test fires. -/
def collidingEnemy : Enemy := ⟨0, ⟨170, 370⟩, ⟨170, 370⟩, ⟨0, 0⟩, false⟩

/-- A fresh runner with one enemy on the player. -/
def runnerC3 : GameRunner := ⟨0, false, false, 0, false, 0, 0, [collidingEnemy], [], [], 0⟩

/-- C3: with the runner not yet game over, one `GameRunner.update` tick
sets `gameOver` exactly when, at collision time, the rush flag is off and
some not-yet-hit enemy's stored sweep collides with the stationary player
capsule; nothing else in the tick sets it. -/
theorem gameOver_iff_unrushed_collision (env : Env) (inp : Input) (r : GameRunner)
    (h : r.gameOver = false) :
    ((GameRunner.update env inp r).gameOver = true ↔
      ((gaugePhase inp { r with ticks := r.ticks + 1 }).rush = false ∧
        ∃ e ∈ (spawnPhase env (gaugePhase inp { r with ticks := r.ticks + 1 })).enemies,
          e.hit = false ∧ enemyCollides e = true)) := by
  rw [update_eq env inp r h, simPhase_gameOver, processEnemies_gameOver]
  simp only [spawnPhase_gameOver, spawnPhase_rush]
  simp [h, List.any_eq_true, Bool.and_eq_true, Bool.not_eq_true']

/-- Witness for C3: an unrushed collision makes the update end the game. -/
theorem gameOver_iff_unrushed_collision_witness :
    (GameRunner.update envMiss inpNone runnerC3).gameOver = true :=
  (gameOver_iff_unrushed_collision envMiss inpNone runnerC3 rfl).mpr
    ⟨rfl, collidingEnemy,
      by norm_num [spawnPhase, gaugePhase, chargePhase, envMiss, inpNone, runnerC3],
      rfl,
      by norm_num [enemyCollides, capsulesCollide, collidingEnemy, Vec2.sub, Vec2.dot,
        Vec2.add, rhinoX, rhinoY, rhinoR, enemyR]⟩

/-- C5 (amended): while charging and not game over, the gauge after the
tick is `min (gage + 1) gageMax` exactly when a touch just began or the
gauge was positive with some touch active, and is unchanged otherwise — in
particular an active touch that did not just begin leaves a zero gauge at
zero. -/
theorem charge_gauge_step (env : Env) (inp : Input) (r : GameRunner)
    (h0 : r.gameOver = false) (h1 : r.rush = false) :
    (GameRunner.update env inp r).gage =
      if inp.anyJustTouched || (decide (0 < r.gage) && inp.anyActive)
      then min (r.gage + 1) gageMax else r.gage := by
  rw [update_eq env inp r h0, simPhase_gage, spawnPhase_gage]
  have hgp : gaugePhase inp { r with ticks := r.ticks + 1 } =
      chargePhase inp { r with ticks := r.ticks + 1 } := by
    simp [gaugePhase, h1]
  rw [hgp, chargePhase_gage]

/-- Input snapshot of a touch that stays held but did not just begin. -/
def inpHold : Input := ⟨false, true, false⟩

/-- Input snapshot of a touch that just began. -/
def inpTap : Input := ⟨true, false, false⟩

/-- Counterexample for C5 as stated: with gauge 0 and an active touch that
did not just begin, the charging tick leaves the gauge at 0 instead of
increasing it by 1. -/
theorem charge_zero_holds_counterexample :
    runner0.gage = 0 ∧ runner0.rush = false ∧ runner0.gameOver = false ∧
      inpHold.anyActive = true ∧ inpHold.anyJustTouched = false ∧
      (GameRunner.update envMiss inpHold runner0).gage = 0 := by
  refine ⟨rfl, rfl, rfl, rfl, rfl, ?_⟩
  norm_num [GameRunner.update, simPhase, gaugePhase, chargePhase, spawnPhase, processEnemies,
    createBackgroundObject, worldToScreen, screenToWorld, capsulesCollide, enemyCollides,
    Enemy.update, BackgroundObject.update, Effect.update, Effect.finished, Effect.new,
    enemyAlive, objectAlive, Vec2.add, Vec2.sub, Vec2.dot, Vec3.add,
    screenWidth, screenHeight, rhinoX, rhinoY, rhinoR, rhinoSpeed, rhinoRushSpeed, enemyR,
    gageMax, cameraY, screenZ, envMiss, inpHold, runner0]

/-- Witness for C5 (amended): a just-begun touch charges 0 → 1. -/
theorem charge_gauge_step_witness :
    (GameRunner.update envMiss inpTap runner0).gage = 1 := by
  rw [charge_gauge_step envMiss inpTap runner0 rfl rfl]
  decide

/-- The enemy list right before the prune of step 7: after spawning and
the collision loop (which also steps each enemy). -/
def enemiesProcessed (env : Env) (inp : Input) (r : GameRunner) : List Enemy :=
  let r2 := spawnPhase env (gaugePhase inp { r with ticks := r.ticks + 1 })
  (processEnemies r2.rush r2.ticks env 0 r2.enemies
    { gameOver := r2.gameOver, hitCountInRush := r2.hitCountInRush,
      score := r2.score, ticksAtHit := r2.ticksAtHit, effects := r2.effects }).1

/-- C9 (amended): the prune of a non-game-over tick keeps an enemy exactly
when its post-step vertical position is strictly below
`screenHeight + 100 = 580` — removal happens as soon as the position
reaches 580, not only strictly beyond it — and the survivors keep their
relative order. -/
theorem enemy_prune_characterization (env : Env) (inp : Input) (r : GameRunner)
    (h : r.gameOver = false) :
    (GameRunner.update env inp r).enemies = (enemiesProcessed env inp r).filter enemyAlive ∧
      List.Sublist (GameRunner.update env inp r).enemies (enemiesProcessed env inp r) ∧
      ∀ e ∈ enemiesProcessed env inp r,
        (e ∈ (GameRunner.update env inp r).enemies ↔ e.pos.y < screenHeight + 100) := by
  have h1 : (GameRunner.update env inp r).enemies =
      (enemiesProcessed env inp r).filter enemyAlive := by
    rw [update_eq env inp r h, simPhase_enemies]; rfl
  refine ⟨h1, ?_, ?_⟩
  · rw [h1]; exact List.filter_sublist _
  · intro e he
    rw [h1, List.mem_filter]
    constructor
    · rintro ⟨_, hb⟩; simpa [enemyAlive] using hb
    · intro hy; exact ⟨he, by simpa [enemyAlive] using hy⟩

/-- A hit enemy one gravity step below the removal cutoff. -/
def boundaryEnemy : Enemy := ⟨0, ⟨100, 579⟩, ⟨100, 579⟩, ⟨0, 1⟩, true⟩

/-- A fresh runner carrying the boundary enemy. -/
def runnerC9 : GameRunner := ⟨0, false, false, 0, false, 0, 0, [boundaryEnemy], [], [], 0⟩

/-- Counterexample for C9 as stated: after the tick the enemy's vertical
position is exactly `screenHeight + 100 = 580` — it has not exceeded the
cutoff — yet the prune removes it. -/
theorem enemy_prune_boundary_counterexample :
    (GameRunner.update envMiss inpNone runnerC9).enemies = [] ∧
      (Enemy.update false boundaryEnemy).pos.y = screenHeight + 100 ∧
      enemiesProcessed envMiss inpNone runnerC9 = [Enemy.update false boundaryEnemy] := by
  refine ⟨?_, ?_, ?_⟩ <;>
    norm_num [GameRunner.update, simPhase, gaugePhase, chargePhase, spawnPhase, processEnemies,
      enemiesProcessed, createBackgroundObject, worldToScreen, screenToWorld, capsulesCollide,
      enemyCollides, Enemy.update, BackgroundObject.update, Effect.update, Effect.finished,
      Effect.new, enemyAlive, objectAlive, Vec2.add, Vec2.sub, Vec2.dot, Vec3.add,
      screenWidth, screenHeight, rhinoX, rhinoY, rhinoR, rhinoSpeed, rhinoRushSpeed, enemyR,
      gageMax, cameraY, screenZ, envMiss, inpNone, runnerC9, boundaryEnemy]

/-- Witness for C9 (amended) at the boundary runner. -/
theorem enemy_prune_characterization_witness :
    (GameRunner.update envMiss inpNone runnerC9).enemies =
      (enemiesProcessed envMiss inpNone runnerC9).filter enemyAlive :=
  (enemy_prune_characterization envMiss inpNone runnerC9 rfl).1

/-- C10: an enemy's hit flag is monotone — `Enemy.update` never changes
it, and the collision loop skips an already-hit enemy entirely (it is only
stepped, contributing no score change, no streak change and no game
over) — so each enemy scores at most once. -/
theorem enemy_hit_monotone_and_skip :
    (∀ (rush : Bool) (e : Enemy), (Enemy.update rush e).hit = e.hit) ∧
      (∀ (rush : Bool) (now : ℕ) (env : Env) (i : ℕ) (e : Enemy) (es : List Enemy)
          (st : HitState), e.hit = true →
        processEnemies rush now env i (e :: es) st =
          (Enemy.update rush e :: (processEnemies rush now env (i + 1) es st).1,
            (processEnemies rush now env (i + 1) es st).2)) := by
  constructor
  · intro rush e; cases he : e.hit <;> simp [Enemy.update, he]
  · intro rush now env i e es st he
    simp [processEnemies, he]

/-- Witness for C10: a hit enemy is skipped by the collision loop. -/
theorem enemy_hit_monotone_and_skip_witness :
    processEnemies false 3 envMiss 0 [boundaryEnemy] ⟨false, 0, 0, 0, []⟩ =
      (Enemy.update false boundaryEnemy ::
          (processEnemies false 3 envMiss 1 [] ⟨false, 0, 0, 0, []⟩).1,
        (processEnemies false 3 envMiss 1 [] ⟨false, 0, 0, 0, []⟩).2) :=
  enemy_hit_monotone_and_skip.2 false 3 envMiss 0 boundaryEnemy [] ⟨false, 0, 0, 0, []⟩ rfl

/-! ### Score lemmas -/

theorem update_score_mono (env : Env) (inp : Input) (r : GameRunner)
    (h : 0 ≤ r.hitCountInRush) :
    r.score ≤ (GameRunner.update env inp r).score ∧
      0 ≤ (GameRunner.update env inp r).hitCountInRush := by
  by_cases hg : r.gameOver = true
  · simp [GameRunner.update, hg]; exact h
  · have hg' : r.gameOver = false := by simpa using hg
    rw [update_eq env inp r hg', simPhase_score, simPhase_hitCountInRush]
    have hhc2 : 0 ≤ (spawnPhase env (gaugePhase inp { r with ticks := r.ticks + 1 })).hitCountInRush := by
      rw [spawnPhase_hitCountInRush]
      unfold gaugePhase rushPhase chargePhase; dsimp only
      split_ifs <;> simp_all
    have hsc2 : (spawnPhase env (gaugePhase inp { r with ticks := r.ticks + 1 })).score = r.score := by
      simp
    have hm := processEnemies_mono
      (spawnPhase env (gaugePhase inp { r with ticks := r.ticks + 1 })).rush
      (spawnPhase env (gaugePhase inp { r with ticks := r.ticks + 1 })).ticks env
      (spawnPhase env (gaugePhase inp { r with ticks := r.ticks + 1 })).enemies 0
      ⟨(spawnPhase env (gaugePhase inp { r with ticks := r.ticks + 1 })).gameOver,
        (spawnPhase env (gaugePhase inp { r with ticks := r.ticks + 1 })).hitCountInRush,
        (spawnPhase env (gaugePhase inp { r with ticks := r.ticks + 1 })).score,
        (spawnPhase env (gaugePhase inp { r with ticks := r.ticks + 1 })).ticksAtHit,
        (spawnPhase env (gaugePhase inp { r with ticks := r.ticks + 1 })).effects⟩
      (by simpa using hhc2)
    constructor
    · calc r.score = (spawnPhase env (gaugePhase inp { r with ticks := r.ticks + 1 })).score :=
            hsc2.symm
        _ ≤ _ := by simpa using hm.2
    · exact le_trans hhc2 (by simpa using hm.1)

theorem run_score_mono (steps : List (Env × Input)) (r : GameRunner)
    (h : 0 ≤ r.hitCountInRush) :
    r.score ≤ (GameRunner.run steps r).score ∧
      0 ≤ (GameRunner.run steps r).hitCountInRush := by
  induction steps generalizing r with
  | nil => exact ⟨le_refl _, h⟩
  | cons s rest ih =>
    have hstep := update_score_mono s.1 s.2 r h
    have hrest := ih (GameRunner.update s.1 s.2 r) hstep.2
    exact ⟨le_trans hstep.1 (by simpa [GameRunner.run] using hrest.1),
      by simpa [GameRunner.run] using hrest.2⟩

theorem update_score_not_rush (env : Env) (inp : Input) (r : GameRunner)
    (h0 : r.gameOver = false)
    (h1 : (gaugePhase inp { r with ticks := r.ticks + 1 }).rush = false) :
    (GameRunner.update env inp r).score = r.score := by
  rw [update_eq env inp r h0, simPhase_score]
  rw [spawnPhase_rush, h1]
  rw [(processEnemies_not_rush_frame _ env _ _ _).2]
  simp

/-- C4: the score never decreases (per tick and over any run, given the
streak counter is nonnegative as in every reachable state); while rushing,
the collision loop increments the streak once per newly hit enemy and adds
exactly `10 ×` the incremented streak for each (so a streak of 3 makes the
next hit add 40); the streak resets to 0 when the rush ends; and a tick
whose collision phase is not rushing leaves the score unchanged. -/
theorem score_monotone_and_combo (env : Env) (inp : Input) (steps : List (Env × Input))
    (r : GameRunner) (now i : ℕ) (es : List Enemy) (st : HitState)
    (hhc : 0 ≤ r.hitCountInRush) :
    (r.score ≤ (GameRunner.update env inp r).score ∧
      r.score ≤ (GameRunner.run steps r).score) ∧
    ((processEnemies true now env i es st).2.hitCountInRush =
        st.hitCountInRush + ((es.filter fun e => !e.hit && enemyCollides e).length : ℤ) ∧
      (processEnemies true now env i es st).2.score =
        st.score + ∑ j in Finset.range (es.filter fun e => !e.hit && enemyCollides e).length,
          10 * (st.hitCountInRush + (j : ℤ) + 1)) ∧
    (r.gameOver = false → r.rush = true → r.gage ≤ 1 →
      (GameRunner.update env inp r).hitCountInRush = 0) ∧
    (r.gameOver = false → (gaugePhase inp { r with ticks := r.ticks + 1 }).rush = false →
      (GameRunner.update env inp r).score = r.score) :=
  ⟨⟨(update_score_mono env inp r hhc).1, (run_score_mono steps r hhc).1⟩,
    processEnemies_rush_agg now env es i st,
    fun h0 h1 h2 => (update_rush_end env inp r h0 h1 h2).2.2,
    fun h0 h1 => update_score_not_rush env inp r h0 h1⟩

/-- A collision-loop state with a streak of 3 and score 100. -/
def hitSt : HitState := ⟨false, 3, 100, 0, []⟩

/-- Witness for C4: with a streak of 3, the next hit adds exactly 40. -/
theorem score_monotone_and_combo_witness :
    (processEnemies true 5 envMiss 0 [collidingEnemy] hitSt).2.score = 100 + 40 := by
  rw [(score_monotone_and_combo envMiss inpNone [] runner0 5 0 [collidingEnemy] hitSt
    (by decide)).2.1.2]
  norm_num [hitSt, enemyCollides, capsulesCollide, collidingEnemy, Vec2.sub, Vec2.dot,
    Vec2.add, rhinoX, rhinoY, rhinoR, enemyR, Finset.sum_range_one]

/-- C6: the projection transforms are mutually inverse — recovering the
world point from a screen point with a known positive depth (or a known
ground height giving a positive depth) and reprojecting returns the screen
point exactly; consequently a background object created at a requested
screen X reprojects to exactly that screen X. -/
theorem projection_round_trip :
    (∀ (s : Vec2) (camY scrZ w h z : ℚ), scrZ ≠ 0 → 0 < z →
        worldToScreen (screenToWorld s (.zKnown z) camY scrZ w h) camY scrZ w h = s) ∧
      (∀ (s : Vec2) (camY scrZ w h y : ℚ), scrZ ≠ 0 →
          0 < (screenToWorld s (.yKnown y) camY scrZ w h).z →
          worldToScreen (screenToWorld s (.yKnown y) camY scrZ w h) camY scrZ w h = s) ∧
      (∀ (typ : BgType) (scrX rnd : ℚ), 0 ≤ rnd →
          (worldToScreen (createBackgroundObject typ scrX rnd).pos
              cameraY screenZ screenWidth screenHeight).x = scrX) := by
  refine ⟨?_, ?_, ?_⟩
  · rintro ⟨sx, sy⟩ camY scrZ w h z hsz hz
    have hz' : z ≠ 0 := ne_of_gt hz
    simp only [worldToScreen, screenToWorld, Vec2.mk.injEq]
    constructor <;> field_simp <;> ring
  · rintro ⟨sx, sy⟩ camY scrZ w h y hsz hzpos
    simp only [screenToWorld] at hzpos ⊢
    have hDne : sy - h / 2 ≠ 0 := by
      intro h0
      rw [h0, div_zero] at hzpos
      exact lt_irrefl 0 hzpos
    have hnum : scrZ * (y - camY) ≠ 0 := by
      intro h0
      rw [h0, zero_div] at hzpos
      exact lt_irrefl 0 hzpos
    have hyc : y - camY ≠ 0 := by
      intro h0
      exact hnum (by rw [h0, mul_zero])
    have hzne : scrZ * (y - camY) / (sy - h / 2) ≠ 0 := ne_of_gt hzpos
    simp only [worldToScreen, Vec2.mk.injEq]
    constructor
    · generalize hZ : scrZ * (y - camY) / (sy - h / 2) = zy
      have hzy : zy ≠ 0 := hZ ▸ hzne
      field_simp
      ring
    · rw [div_div_eq_mul_div, mul_div_cancel_left₀ _ hnum]
      ring
  · rintro typ scrX rnd hrnd
    have hmul : (0:ℚ) ≤ rnd * 700 := by positivity
    have hmul2 : (0:ℚ) ≤ rnd * 99999 := by positivity
    cases typ
    · have hz : (20:ℚ) + rnd * 700 ≠ 0 := by positivity
      simp only [createBackgroundObject, worldToScreen, screenToWorld, screenZ, screenWidth,
        screenHeight, cameraY]
      field_simp
      ring
    · have hz : (20:ℚ) + rnd * 700 ≠ 0 := by positivity
      simp only [createBackgroundObject, worldToScreen, screenToWorld, screenZ, screenWidth,
        screenHeight, cameraY]
      field_simp
      ring
    · have hz : (9999:ℚ) + rnd * 99999 ≠ 0 := by positivity
      simp only [createBackgroundObject, worldToScreen, screenToWorld, screenZ, screenWidth,
        screenHeight, cameraY]
      field_simp
      ring

/-- Witness for C6 at concrete screen points and a concrete spawn. -/
theorem projection_round_trip_witness :
    worldToScreen (screenToWorld ⟨1, 2⟩ (.zKnown 1) 0 1 0 0) 0 1 0 0 = ⟨1, 2⟩ ∧
      worldToScreen (screenToWorld ⟨1, 2⟩ (.yKnown 3) 0 1 0 0) 0 1 0 0 = ⟨1, 2⟩ ∧
      (worldToScreen (createBackgroundObject .tree 5 0).pos
          cameraY screenZ screenWidth screenHeight).x = 5 :=
  ⟨projection_round_trip.1 ⟨1, 2⟩ 0 1 0 0 1 (by norm_num) (by norm_num),
    projection_round_trip.2.1 ⟨1, 2⟩ 0 1 0 0 3 (by norm_num)
      (by norm_num [screenToWorld]),
    projection_round_trip.2.2 .tree 5 0 (by norm_num)⟩
